import Mathlib

/-!
# MassNet wallet storage and keystore layer: a shallow embedding

Lean models of the byte-range utility, driver registries, transaction
helper and keystore binary codec of the MassNet wallet persistence
layer, together with theorems settling the specification claims.

Conventions of the embedding:
* Go byte slices are `List Nat` (each entry intended `< 256`; theorems
  carry explicit well-formedness hypotheses where byte-ness matters).
* Go `uint32` arithmetic is `Nat` arithmetic reduced `% 4294967296`
  exactly where the Go source computes in `uint32`.
* Go `error` values are `Option String` (`none` = nil error); functions
  returning `(T, error)` return the corresponding product.
* A Go runtime panic (out-of-range slice expression) is modelled by an
  explicit `panic` constructor of the result type.
* A `Bucket.Get` is abstracted as a function from keys to
  `(value, error)` pairs, matching the Go interface contract that a
  missing key yields a nil value and nil error.
-/

/-- Lexicographic strict order on byte strings, as `bytes.Compare < 0`:
a proper initial segment is smaller, otherwise the first differing byte
decides. -/
def bytesLt : List Nat → List Nat → Bool
  | _, [] => false
  | [], _ :: _ => true
  | a :: as, b :: bs => if a < b then true else if b < a then false else bytesLt as bs

/-- Lexicographic order on byte strings, as `bytes.Compare <= 0`. -/
def bytesLe : List Nat → List Nat → Bool
  | [], _ => true
  | _ :: _, [] => false
  | a :: as, b :: bs => if a < b then true else if b < a then false else bytesLe as bs

/-- Membership of a key below an optional exclusive upper bound: a `none`
limit is unbounded above (every key qualifies). -/
def inLimit (k : List Nat) : Option (List Nat) → Bool
  | none => true
  | some l => bytesLt k l

/-- `binary.LittleEndian.PutUint32`: the 4 little-endian bytes of
`n % 2^32`. -/
def putUint32LE (n : Nat) : List Nat :=
  [n % 256, n / 256 % 256, n / 65536 % 256, n / 16777216 % 256]

/-- `binary.LittleEndian.Uint32` on (at least) 4 bytes, little-endian. -/
def getUint32LE (l : List Nat) : Nat :=
  l.getD 0 0 + l.getD 1 0 * 256 + l.getD 2 0 * 65536 + l.getD 3 0 * 16777216

namespace storage

/-- The limit computation of `BytesPrefix` (identical in
`masswallet/db/db.go` and the storage package): scan for the last byte
of the input strictly below `0xff`; the limit keeps everything before
it and increments it, truncating the rest; if no such byte exists
(empty input, or all bytes `0xff`) the limit is nil.  The Go `for` loop
walks indices downward; this recursion prefers the match found in the
tail, which is the same last-position choice. -/
def bytesPrefixLimit : List Nat → Option (List Nat)
  | [] => none
  | b :: rest =>
    match bytesPrefixLimit rest with
    | some l => some (b :: l)
    | none => if b < 255 then some [b + 1] else none

/-- `Range` is a key range: `Start` inclusive, `Limit` exclusive, a nil
`Limit` meaning unbounded above. -/
structure Range where
  Start : List Nat
  Limit : Option (List Nat)
  deriving DecidableEq, Repr

/-- `BytesPrefix(prefix)` returns the key range covering the keys that
start with the given bytes. -/
def BytesPrefix (p : List Nat) : Range :=
  { Start := p, Limit := bytesPrefixLimit p }

/-- A storage driver: a type identifier and the two constructors.  The
constructors take the path; the variadic `args ...interface{}` of the
Go source carry no structure used by the registry and are omitted.  A
storage handle is abstracted to an opaque `Nat` identifier. -/
structure StorageDriver where
  DbType : String
  CreateStorage : String → Except String Nat
  OpenStorage : String → Except String Nat

/-- `ErrDbUnknownType` of the storage package. -/
def ErrDbUnknownType : String := "non-existent database type"

/-- `ErrVersionCheckFailed` of the storage package. -/
def ErrVersionCheckFailed : String := "storage version check failed"

/-- `database.ErrDbDoesNotExist`, returned by `CheckVersion` when the
version file is absent (the `database` package is outside this
repository slice; only the distinguished identity of the error
matters here). -/
def ErrDbDoesNotExist : String := "database does not exist"

/-- `RegisterDriver`: scan the registry for a driver with the same type
identifier; if one exists the call is a silent no-op, otherwise the
driver is appended.  The registry is passed explicitly instead of the
Go package-level variable. -/
def RegisterDriver (drivers : List StorageDriver) (instance_ : StorageDriver) :
    List StorageDriver :=
  if drivers.any (fun drv => drv.DbType == instance_.DbType) then drivers
  else drivers ++ [instance_]

/-- `RegisteredDbTypes`: the type identifiers in registration order. -/
def RegisteredDbTypes (drivers : List StorageDriver) : List String :=
  drivers.map (fun drv => drv.DbType)

/-- `CreateStorage`: find the first driver with the given type and
delegate to its create constructor (the Go body re-checks the error
and returns the same pair either way); unknown type is an error. -/
def CreateStorage (drivers : List StorageDriver) (dbtype dbpath : String) :
    Except String Nat :=
  match drivers with
  | [] => .error ErrDbUnknownType
  | drv :: rest =>
    if drv.DbType = dbtype then drv.CreateStorage dbpath
    else CreateStorage rest dbtype dbpath

/-- `OpenStorage`: find the first driver with the given type and
delegate to its open constructor; unknown type is an error.  The
`CheckVersion` call that would gate the open is commented out in the
source, so no version check happens here. -/
def OpenStorage (drivers : List StorageDriver) (dbtype dbpath : String) :
    Except String Nat :=
  match drivers with
  | [] => .error ErrDbUnknownType
  | drv :: rest =>
    if drv.DbType = dbtype then drv.OpenStorage dbpath
    else OpenStorage rest dbtype dbpath

/-- `CurrentStorageVersion` is the database format version. -/
def CurrentStorageVersion : Int := 1

/-- The persisted version stamp `storageVersion{dbtype, version}`. -/
structure storageVersion where
  Dbtype : String
  Version : Int
  deriving DecidableEq, Repr

/-- `CheckVersion` in its `create = false` branch, with the file system
abstracted to the stamp persisted at the path (`none` when the `.ver`
file does not exist): absence yields `ErrDbDoesNotExist`; a stamp whose
version and dbtype both match the current values passes; anything else
fails the version check.  (The `create = true` branch only writes the
stamp and is not involved in the claims about opening.) -/
def CheckVersion (dbtype : String) (stamp : Option storageVersion) : Option String :=
  match stamp with
  | none => some ErrDbDoesNotExist
  | some ver =>
    if ver.Version = CurrentStorageVersion ∧ ver.Dbtype = dbtype then none
    else some ErrVersionCheckFailed

end storage

namespace wdb

/-- A DB driver of `masswallet/db`: the Go field `Type` is renamed
`DbType` (`Type` is a Lean keyword).  Constructors are abstracted as
for `storage.StorageDriver`; the variadic args carry no structure used
by the registry and the DB handle is an opaque `Nat`. -/
structure DBDriver where
  DbType : String
  OpenDB : String → Except String Nat
  CreateDB : String → Except String Nat

/-- `ErrDbUnknownType` of `masswallet/db` (the typo is in the source). -/
def ErrDbUnknownType : String := "unknownt db type"

/-- `RegisterDriver` of `masswallet/db`: no-op when a driver of the
same type is present, append otherwise. -/
def RegisterDriver (drivers : List DBDriver) (ins : DBDriver) : List DBDriver :=
  if drivers.any (fun drv => drv.DbType == ins.DbType) then drivers
  else drivers ++ [ins]

/-- `RegisteredDbTypes` of `masswallet/db`. -/
def RegisteredDbTypes (drivers : List DBDriver) : List String :=
  drivers.map (fun drv => drv.DbType)

/-- `CreateDB`: delegate to the first matching driver, else unknown type. -/
def CreateDB (drivers : List DBDriver) (dbtype dbpath : String) : Except String Nat :=
  match drivers with
  | [] => .error ErrDbUnknownType
  | drv :: rest =>
    if drv.DbType = dbtype then drv.CreateDB dbpath
    else CreateDB rest dbtype dbpath

/-- `OpenDB`: delegate to the first matching driver, else unknown type. -/
def OpenDB (drivers : List DBDriver) (dbtype dbpath : String) : Except String Nat :=
  match drivers with
  | [] => .error ErrDbUnknownType
  | drv :: rest =>
    if drv.DbType = dbtype then drv.OpenDB dbpath
    else OpenDB rest dbtype dbpath

/-- The transaction-terminating calls `Update` can issue. -/
inductive TxAction where
  | commit
  | rollback
  deriving DecidableEq, Repr

/-- The observable outcome of one `Update` run: the returned error, whether
the body was invoked, and the terminating calls issued on the transaction
in order. -/
structure UpdateOutcome where
  result : Option String
  fnCalled : Bool
  actions : List TxAction
  deriving DecidableEq, Repr

/-- `Update(db, f)` with the collaborators abstracted to their error
outcomes: `beginErr` is the error of `db.BeginTx()`, `fnErr` the error of
`f(tx)`, `commitErr` the error of `tx.Commit()`.  The Go body: a failed
begin returns immediately; a failed body rolls back (the rollback error
is discarded) and returns the body error; otherwise the commit result is
returned. -/
def Update (beginErr fnErr commitErr : Option String) : UpdateOutcome :=
  match beginErr with
  | some e => { result := some e, fnCalled := false, actions := [] }
  | none =>
    match fnErr with
    | some e => { result := some e, fnCalled := true, actions := [TxAction.rollback] }
    | none => { result := commitErr, fnCalled := true, actions := [TxAction.commit] }

end wdb

namespace keystore

/-- The abstraction of `Bucket.Get`: each key yields a `(value, error)`
pair.  A missing key yields `(none, none)` per the interface contract
"Get returns nil if not found". -/
abbrev Getter := List Nat → Option (List Nat) × Option String

/-- `keystoreVersionName`, the ASCII bytes of "kver". -/
def keystoreVersionName : List Nat := [107, 118, 101, 114]

/-- `cryptoPrivKeyName`, the ASCII bytes of "cpriv". -/
def cryptoPrivKeyName : List Nat := [99, 112, 114, 105, 118]

/-- `cryptoPubKeyName`, the ASCII bytes of "cpub". -/
def cryptoPubKeyName : List Nat := [99, 112, 117, 98]

/-- `cryptoEntropyKeyName`, the ASCII bytes of "cent". -/
def cryptoEntropyKeyName : List Nat := [99, 101, 110, 116]

/-- `accountUsageName`, the ASCII bytes of "account". -/
def accountUsageName : List Nat := [97, 99, 99, 111, 117, 110, 116]

/-- `externalChildNumName`, the ASCII bytes of "exChildNum". -/
def externalChildNumName : List Nat := [101, 120, 67, 104, 105, 108, 100, 78, 117, 109]

/-- `internalChildNumName`, the ASCII bytes of "inChildNum". -/
def internalChildNumName : List Nat := [105, 110, 67, 104, 105, 108, 100, 78, 117, 109]

/-- `uint32ToBytes`: a 32-bit unsigned integer as a 4-byte little-endian
slice. -/
def uint32ToBytes (number : Nat) : List Nat := putUint32LE number

/-- `dbAccountRow`: the leading account-type byte and the raw payload. -/
structure dbAccountRow where
  acctType : Nat
  rawData : List Nat
  deriving DecidableEq, Repr

/-- `dbHDAccountKey`: the account row it was decoded from plus the two
encrypted key blobs. -/
structure dbHDAccountKey where
  row : dbAccountRow
  pubKeyEncrypted : List Nat
  privKeyEncrypted : List Nat
  deriving DecidableEq, Repr

/-- Outcome of a Go function returning `(T, error)` whose body can also
panic on an out-of-range slice expression. -/
inductive GoResult (α : Type) where
  | ok (a : α)
  | err (msg : String)
  | panic
  deriving DecidableEq, Repr

/-- The Go slice expression `l[lo:hi]`: defined when `lo ≤ hi ≤ len(l)`,
otherwise a runtime panic (`none` here). -/
def sliceGo (l : List Nat) (lo hi : Nat) : Option (List Nat) :=
  if lo ≤ hi ∧ hi ≤ l.length then some ((l.drop lo).take (hi - lo)) else none

/-- `serializeHDAccountKey`: 4-byte LE length of the encrypted public
key, the public key, 4-byte LE length of the encrypted private key, the
private key.  (The Go buffer arithmetic is in `uint32`; `putUint32LE`
carries the same `% 2^32` truncation of the length fields.) -/
def serializeHDAccountKey (encryptedPubKey encryptedPrivKey : List Nat) : List Nat :=
  putUint32LE encryptedPubKey.length ++ encryptedPubKey ++
    putUint32LE encryptedPrivKey.length ++ encryptedPrivKey

/-- `serializeAccountRow`: 1 byte account type, 4-byte LE raw-data
length, raw data. -/
def serializeAccountRow (row : dbAccountRow) : List Nat :=
  row.acctType % 256 :: (putUint32LE row.rawData.length ++ row.rawData)

/-- `deserializeAccountRow`: reject inputs shorter than the 5-byte
header, read the type byte and the declared length, and slice the
payload — `serializedAccount[5 : 5+rdlen]` with the upper index
computed in `uint32`, panicking when out of range.  (In Go the payload
is copied into a fresh buffer of size `rdlen`; on every non-panicking
path the slice already has that length.) -/
def deserializeAccountRow (accountID serializedAccount : List Nat) :
    GoResult dbAccountRow :=
  if serializedAccount.length < 5 then .err "malformed serialized account"
  else
    let rdlen := getUint32LE ((serializedAccount.drop 1).take 4)
    match sliceGo serializedAccount 5 ((5 + rdlen) % 4294967296) with
    | none => .panic
    | some raw => .ok { acctType := serializedAccount.getD 0 0, rawData := raw }

/-- `deserializeHDAccountKey`: reject payloads shorter than the two
4-byte length fields; then read the declared public-key length, slice
the public key, read the declared private-key length at the following
offset, and slice the private key — every offset computed in `uint32`
and every slice panicking when out of range, exactly as the Go
slice expressions do. -/
def deserializeHDAccountKey (accountID : List Nat) (row : dbAccountRow) :
    GoResult dbHDAccountKey :=
  if row.rawData.length < 8 then .err "malformed serialized bip0044 account"
  else
    let raw := row.rawData
    let pubLen := getUint32LE (raw.take 4)
    match sliceGo raw 4 ((4 + pubLen) % 4294967296) with
    | none => .panic
    | some pubKey =>
      let offset := (4 + pubLen) % 4294967296
      match sliceGo raw offset ((offset + 4) % 4294967296) with
      | none => .panic
      | some privLenBytes =>
        let privLen := getUint32LE privLenBytes
        let offset2 := (offset + 4) % 4294967296
        match sliceGo raw offset2 ((offset2 + privLen) % 4294967296) with
        | none => .panic
        | some privKey =>
          .ok { row := row, pubKeyEncrypted := pubKey, privKeyEncrypted := privKey }

/-- `fetchVersion`: get the version record; a get error or an empty (or
absent) value returns version 0 together with whatever the get error
was; otherwise the first byte of the value. -/
def fetchVersion (get : Getter) : Nat × Option String :=
  let r := get keystoreVersionName
  if r.2.isSome ∨ (r.1.getD []).length = 0 then (0, r.2)
  else ((r.1.getD []).getD 0 0, none)

/-- `fetchCryptoKeys`: the crypto public key is required — its get error
is propagated and its absence is an error; the following gets of the
crypto private key and entropy key assign their error to a variable that
is never read, so only their values matter, and the final return carries
a nil error. -/
def fetchCryptoKeys (get : Getter) :
    Option (List Nat) × Option (List Nat) × Option (List Nat) × Option String :=
  let r := get cryptoPubKeyName
  match r.2 with
  | some e => (none, none, none, some e)
  | none =>
    match r.1 with
    | none => (none, none, none, some "required encrypted crypto public not stored in database")
    | some v =>
      let privKey := (get cryptoPrivKeyName).1
      let entropyKey := (get cryptoEntropyKeyName).1
      (some v, privKey, entropyKey, none)

/-- `fetchAccountUsage`: the get error is discarded (`val, _ :=`); a nil
value is reported as the record not being stored, otherwise the 4-byte
LE counter is decoded. -/
def fetchAccountUsage (get : Getter) : Nat × Option String :=
  match (get accountUsageName).1 with
  | none => (0, some "required account usage not stored in database")
  | some val => (getUint32LE val, none)

/-- `fetchAccountInfo`: look up the row keyed by the 4-byte LE account
number (the get error is discarded); a nil value is account-not-found;
the row is deserialized, dispatched on the account type — only
`accountMASS = 0` is defined — and any other tag is unsupported. -/
def fetchAccountInfo (get : Getter) (account : Nat) : GoResult dbHDAccountKey :=
  let accountID := uint32ToBytes account
  match (get accountID).1 with
  | none => .err "account not found"
  | some data =>
    match deserializeAccountRow accountID data with
    | .err e => .err e
    | .panic => .panic
    | .ok row =>
      if row.acctType = 0 then deserializeHDAccountKey accountID row
      else .err "unsupported account type"

/-- An in-memory bucket key space: an association list of key/value
pairs, enough to model the store the put/fetch pairs run against. -/
def Bkt := List (List Nat × List Nat)

/-- Store a value under a key, replacing any previous value. -/
def bput : Bkt → List Nat → List Nat → Bkt
  | [], k, v => [(k, v)]
  | (k0, v0) :: rest, k, v =>
    if k0 = k then (k, v) :: rest else (k0, v0) :: bput rest k v

/-- Look up the value stored under a key. -/
def bgetVal : Bkt → List Nat → Option (List Nat)
  | [], _ => none
  | (k0, v0) :: rest, k => if k0 = k then some v0 else bgetVal rest k

/-- The `Getter` of an in-memory bucket: never errors, absent keys come
back nil. -/
def bucketGetter (b : Bkt) : Getter := fun k => (bgetVal b k, none)

/-- `initBranchChildNum`: store a zero 4-byte LE counter under both the
external and the internal child-number key.  The in-memory `Put` cannot
fail, so the error paths of the Go body do not arise. -/
def initBranchChildNum (b : Bkt) : Bkt :=
  bput (bput b externalChildNumName (uint32ToBytes 0)) internalChildNumName (uint32ToBytes 0)

/-- `updateChildNum`: store the next index under the internal or the
external child-number key, selected by the boolean. -/
def updateChildNum (b : Bkt) (internal : Bool) (nextIndex : Nat) : Bkt :=
  bput b (if internal then internalChildNumName else externalChildNumName)
    (uint32ToBytes nextIndex)

/-- `fetchChildNum`: get the external then the internal counter — each
get error is propagated and each absent value is an error — and return
the decoded pair `(internal, external)`. -/
def fetchChildNum (get : Getter) : Nat × Nat × Option String :=
  let rEx := get externalChildNumName
  match rEx.2 with
  | some e => (0, 0, some e)
  | none =>
    match rEx.1 with
    | none =>
      (0, 0, some "required encrypted external branch child number not stored in database")
    | some exChildNum =>
      let rIn := get internalChildNumName
      match rIn.2 with
      | some e => (0, 0, some e)
      | none =>
        match rIn.1 with
        | none =>
          (0, 0, some "required encrypted internal branch child number not stored in database")
        | some inChildNum => (getUint32LE inChildNum, getUint32LE exChildNum, none)

end keystore

/-! ## Properties of the prefix range -/

theorem bytesLt_nil (K : List Nat) : bytesLt K [] = false := by
  cases K <;> rfl

theorem isPrefixOf_bytesLe : ∀ P K : List Nat, P.isPrefixOf K = true → bytesLe P K = true
  | [], _, _ => rfl
  | _ :: _, [], h => by simp [List.isPrefixOf] at h
  | a :: as, b :: bs, h => by
    simp only [List.isPrefixOf, Bool.and_eq_true, beq_iff_eq] at h
    obtain ⟨rfl, h2⟩ := h
    simp [bytesLe, isPrefixOf_bytesLe as bs h2]

theorem prefix_lt_limit : ∀ (P L K : List Nat), storage.bytesPrefixLimit P = some L →
    P.isPrefixOf K = true → bytesLt K L = true
  | [], _, _, h, _ => by simp [storage.bytesPrefixLimit] at h
  | b :: rest, L, K, h, hp => by
    cases K with
    | nil => simp [List.isPrefixOf] at hp
    | cons a K1 =>
      simp only [List.isPrefixOf, Bool.and_eq_true, beq_iff_eq] at hp
      obtain ⟨rfl, hp2⟩ := hp
      rw [storage.bytesPrefixLimit] at h
      cases hrest : storage.bytesPrefixLimit rest with
      | some l =>
        rw [hrest] at h
        injection h with h
        subst h
        simp [bytesLt, prefix_lt_limit rest l K1 hrest hp2]
      | none =>
        rw [hrest] at h
        by_cases hb : b < 255
        · rw [if_pos hb] at h
          injection h with h
          subst h
          simp [bytesLt]
        · rw [if_neg hb] at h
          cases h

theorem le_lt_limit_isPrefixOf : ∀ (P K : List Nat), (∀ x ∈ P, x < 256) →
    (∀ x ∈ K, x < 256) → bytesLe P K = true →
    inLimit K (storage.bytesPrefixLimit P) = true → P.isPrefixOf K = true
  | [], K, _, _, _, _ => by cases K <;> rfl
  | b :: rest, K, hP, hK, hle, hlim => by
    cases K with
    | nil => simp [bytesLe] at hle
    | cons a K1 =>
      have hb : b < 256 := hP b (by simp)
      have ha : a < 256 := hK a (by simp)
      have hPr : ∀ x ∈ rest, x < 256 := fun x hx => hP x (List.mem_cons_of_mem b hx)
      have hKr : ∀ x ∈ K1, x < 256 := fun x hx => hK x (List.mem_cons_of_mem a hx)
      rw [storage.bytesPrefixLimit] at hlim
      cases hrest : storage.bytesPrefixLimit rest with
      | some l =>
        rw [hrest] at hlim
        rcases Nat.lt_trichotomy a b with hab | hab | hab
        · simp [bytesLe, hab, Nat.lt_asymm hab] at hle
        · subst hab
          simp only [bytesLe, Nat.lt_irrefl, if_false] at hle
          simp only [inLimit, bytesLt, Nat.lt_irrefl, if_false] at hlim
          have := le_lt_limit_isPrefixOf rest K1 hPr hKr hle
            (by rw [hrest]; simpa [inLimit] using hlim)
          simp [List.isPrefixOf, this]
        · simp [inLimit, bytesLt, hab, Nat.lt_asymm hab] at hlim
      | none =>
        rw [hrest] at hlim
        by_cases hblt : b < 255
        · rw [if_pos hblt] at hlim
          rcases Nat.lt_trichotomy a b with hab | hab | hab
          · simp [bytesLe, hab, Nat.lt_asymm hab] at hle
          · subst hab
            simp only [bytesLe, Nat.lt_irrefl, if_false] at hle
            have := le_lt_limit_isPrefixOf rest K1 hPr hKr hle (by simp [hrest, inLimit])
            simp [List.isPrefixOf, this]
          · have h1 : ¬ a < b + 1 := by omega
            simp [inLimit, bytesLt, h1, bytesLt_nil] at hlim
        · rw [if_neg hblt] at hlim
          have hb255 : b = 255 := by omega
          rcases Nat.lt_trichotomy a b with hab | hab | hab
          · simp [bytesLe, hab, Nat.lt_asymm hab] at hle
          · subst hab
            simp only [bytesLe, Nat.lt_irrefl, if_false] at hle
            have := le_lt_limit_isPrefixOf rest K1 hPr hKr hle (by simp [hrest, inLimit])
            simp [List.isPrefixOf, this]
          · omega

theorem limit_none_iff_all255 : ∀ P : List Nat, (∀ x ∈ P, x < 256) →
    (storage.bytesPrefixLimit P = none ↔ ∀ x ∈ P, x = 255)
  | [], _ => by simp [storage.bytesPrefixLimit]
  | b :: rest, hP => by
    have hPr : ∀ x ∈ rest, x < 256 := fun x hx => hP x (List.mem_cons_of_mem b hx)
    have hb : b < 256 := hP b (by simp)
    have ih := limit_none_iff_all255 rest hPr
    rw [storage.bytesPrefixLimit]
    cases hrest : storage.bytesPrefixLimit rest with
    | some l =>
      show some (b :: l) = none ↔ _
      constructor
      · intro h
        cases h
      · intro h
        have h0 := ih.mpr fun x hx => h x (List.mem_cons_of_mem b hx)
        rw [hrest] at h0
        cases h0
    | none =>
      show (if b < 255 then some [b + 1] else none) = none ↔ _
      by_cases hblt : b < 255
      · simp only [if_pos hblt]
        constructor
        · intro h
          cases h
        · intro h
          have := h b (by simp)
          omega
      · simp only [if_neg hblt]
        have hb255 : b = 255 := by omega
        subst hb255
        simp only [true_iff]
        intro x hx
        rcases List.mem_cons.mp hx with rfl | hx
        · rfl
        · exact (ih.mp hrest) x hx

theorem limit_shape : ∀ (P L : List Nat), (∀ x ∈ P, x < 256) →
    storage.bytesPrefixLimit P = some L →
    ∃ i, ∃ h : i < P.length, P.get ⟨i, h⟩ < 255 ∧
      (∀ j, ∀ hj : j < P.length, i < j → P.get ⟨j, hj⟩ = 255) ∧
      L = P.take i ++ [P.get ⟨i, h⟩ + 1]
  | [], _, _, h => by simp [storage.bytesPrefixLimit] at h
  | b :: rest, L, hP, h => by
    have hPr : ∀ x ∈ rest, x < 256 := fun x hx => hP x (List.mem_cons_of_mem b hx)
    rw [storage.bytesPrefixLimit] at h
    cases hrest : storage.bytesPrefixLimit rest with
    | some l =>
      rw [hrest] at h
      injection h with h
      subst h
      obtain ⟨i, hi, hlt, hall, hL⟩ := limit_shape rest l hPr hrest
      refine ⟨i + 1, by simpa using Nat.succ_lt_succ hi, by simpa using hlt, ?_, ?_⟩
      · intro j hj hij
        cases j with
        | zero => omega
        | succ j1 =>
          have hj1 : j1 < rest.length := by simpa using hj
          simpa using hall j1 hj1 (by omega)
      · simp [hL]
    | none =>
      rw [hrest] at h
      by_cases hb : b < 255
      · rw [if_pos hb] at h
        injection h with h
        subst h
        refine ⟨0, by simp, by simpa using hb, ?_, by simp⟩
        intro j hj hij
        cases j with
        | zero => omega
        | succ j1 =>
          have hj1 : j1 < rest.length := by simpa using hj
          have hall := (limit_none_iff_all255 rest hPr).mp hrest
          simpa using hall (rest.get ⟨j1, hj1⟩) (rest.get_mem _ _)
      · rw [if_neg hb] at h
        cases h

/-- C1: `BytesPrefix(P)` is the exact half-open range of the keys with
prefix `P`: its `Start` is `P` itself; a key `K` starts with `P` exactly
when `P ≤ K` and `K` is below the limit (a nil limit excluding no key);
the limit is nil exactly when `P` is empty or all `0xFF`; and otherwise
the limit is `P` truncated after its last byte below `0xFF`, with that
byte incremented. -/
theorem claimC1 (P K : List Nat) (hP : ∀ x ∈ P, x < 256) (hK : ∀ x ∈ K, x < 256) :
    (storage.BytesPrefix P).Start = P
    ∧ (P.isPrefixOf K = true ↔
        (bytesLe P K = true ∧ inLimit K (storage.BytesPrefix P).Limit = true))
    ∧ ((storage.BytesPrefix P).Limit = none ↔ ∀ x ∈ P, x = 255)
    ∧ (∀ L, (storage.BytesPrefix P).Limit = some L →
        ∃ i, ∃ h : i < P.length, P.get ⟨i, h⟩ < 255 ∧
          (∀ j, ∀ hj : j < P.length, i < j → P.get ⟨j, hj⟩ = 255) ∧
          L = P.take i ++ [P.get ⟨i, h⟩ + 1]) := by
  refine ⟨rfl, ⟨fun hpre => ⟨isPrefixOf_bytesLe P K hpre, ?_⟩,
      fun ⟨hle, hlim⟩ => le_lt_limit_isPrefixOf P K hP hK hle hlim⟩,
      limit_none_iff_all255 P hP, fun L hL => limit_shape P L hP hL⟩
  show inLimit K (storage.bytesPrefixLimit P) = true
  cases hlim : storage.bytesPrefixLimit P with
  | none => rfl
  | some l => simpa [inLimit] using prefix_lt_limit P l K hlim hpre

/-- Witness for C1 at the prefix `[1, 255]` and the key `[1, 255, 7]`. -/
theorem claimC1_witness :
    (storage.BytesPrefix [1, 255]).Start = [1, 255]
    ∧ (List.isPrefixOf [1, 255] [1, 255, 7] = true ↔
        (bytesLe [1, 255] [1, 255, 7] = true ∧
          inLimit [1, 255, 7] (storage.BytesPrefix [1, 255]).Limit = true))
    ∧ ((storage.BytesPrefix [1, 255]).Limit = none ↔ ∀ x ∈ [1, 255], x = 255)
    ∧ (∀ L, (storage.BytesPrefix [1, 255]).Limit = some L →
        ∃ i, ∃ h : i < ([1, 255] : List Nat).length, ([1, 255] : List Nat).get ⟨i, h⟩ < 255 ∧
          (∀ j, ∀ hj : j < ([1, 255] : List Nat).length, i < j →
            ([1, 255] : List Nat).get ⟨j, hj⟩ = 255) ∧
          L = ([1, 255] : List Nat).take i ++ [([1, 255] : List Nat).get ⟨i, h⟩ + 1]) :=
  claimC1 [1, 255] [1, 255, 7] (by decide) (by decide)

/-! ## Properties of the transaction helper -/

/-- C2: `Update` returns a failed begin verbatim without invoking the
body; a failed body triggers exactly a rollback and propagates the body
error; a successful body triggers exactly a commit and returns the
commit result; and whenever the transaction was begun, exactly one of
commit or rollback is issued. -/
theorem claimC2 (b f c : Option String) :
    (∀ e, b = some e →
        wdb.Update b f c = { result := some e, fnCalled := false, actions := [] })
    ∧ (b = none → ∀ e, f = some e →
        wdb.Update b f c =
          { result := some e, fnCalled := true, actions := [wdb.TxAction.rollback] })
    ∧ (b = none → f = none →
        wdb.Update b f c =
          { result := c, fnCalled := true, actions := [wdb.TxAction.commit] })
    ∧ (b = none →
        ((wdb.Update b f c).actions.count wdb.TxAction.commit = 1 ∧
            (wdb.Update b f c).actions.count wdb.TxAction.rollback = 0)
        ∨ ((wdb.Update b f c).actions.count wdb.TxAction.commit = 0 ∧
            (wdb.Update b f c).actions.count wdb.TxAction.rollback = 1)) := by
  rcases b with _ | e1 <;> rcases f with _ | e2 <;>
    simp [wdb.Update, List.count_cons, List.count_nil]

/-- Witness for C2: a failing body on a successfully begun transaction
rolls back and propagates the body error. -/
theorem claimC2_witness :
    wdb.Update none (some "boom") none =
      { result := some "boom", fnCalled := true, actions := [wdb.TxAction.rollback] } :=
  (claimC2 none (some "boom") none).2.1 rfl "boom" rfl

/-! ## Properties of the driver registries and the version stamp -/

theorem storage_OpenStorage_unknown :
    ∀ (drivers : List storage.StorageDriver) (t p : String),
      (∀ d ∈ drivers, d.DbType ≠ t) →
      storage.OpenStorage drivers t p = .error storage.ErrDbUnknownType
  | [], _, _, _ => rfl
  | d :: rest, t, p, h => by
    rw [storage.OpenStorage, if_neg (h d (by simp))]
    exact storage_OpenStorage_unknown rest t p fun x hx => h x (List.mem_cons_of_mem d hx)

theorem storage_OpenStorage_found :
    ∀ (drivers : List storage.StorageDriver) (t p : String) (d : storage.StorageDriver),
      drivers.find? (fun x => x.DbType == t) = some d →
      storage.OpenStorage drivers t p = d.OpenStorage p
  | [], _, _, _, h => by simp [List.find?] at h
  | d0 :: rest, t, p, d, h => by
    rw [storage.OpenStorage]
    by_cases h0 : d0.DbType = t
    · rw [List.find?_cons_of_pos _ (by simp [h0])] at h
      injection h with h
      subst h
      rw [if_pos h0]
    · rw [List.find?_cons_of_neg _ (by simp [h0])] at h
      rw [if_neg h0]
      exact storage_OpenStorage_found rest t p d h

theorem storage_CreateStorage_unknown :
    ∀ (drivers : List storage.StorageDriver) (t p : String),
      (∀ d ∈ drivers, d.DbType ≠ t) →
      storage.CreateStorage drivers t p = .error storage.ErrDbUnknownType
  | [], _, _, _ => rfl
  | d :: rest, t, p, h => by
    rw [storage.CreateStorage, if_neg (h d (by simp))]
    exact storage_CreateStorage_unknown rest t p fun x hx => h x (List.mem_cons_of_mem d hx)

theorem storage_CreateStorage_found :
    ∀ (drivers : List storage.StorageDriver) (t p : String) (d : storage.StorageDriver),
      drivers.find? (fun x => x.DbType == t) = some d →
      storage.CreateStorage drivers t p = d.CreateStorage p
  | [], _, _, _, h => by simp [List.find?] at h
  | d0 :: rest, t, p, d, h => by
    rw [storage.CreateStorage]
    by_cases h0 : d0.DbType = t
    · rw [List.find?_cons_of_pos _ (by simp [h0])] at h
      injection h with h
      subst h
      rw [if_pos h0]
    · rw [List.find?_cons_of_neg _ (by simp [h0])] at h
      rw [if_neg h0]
      exact storage_CreateStorage_found rest t p d h

theorem storage_register_noop (regs : List storage.StorageDriver)
    (ins : storage.StorageDriver) (h : ins.DbType ∈ storage.RegisteredDbTypes regs) :
    storage.RegisterDriver regs ins = regs := by
  rw [storage.RegisterDriver, if_pos]
  rcases List.mem_map.mp h with ⟨d, hd, hdt⟩
  exact List.any_eq_true.mpr ⟨d, hd, by simp [hdt]⟩

theorem storage_register_new (regs : List storage.StorageDriver)
    (ins : storage.StorageDriver) (h : ins.DbType ∉ storage.RegisteredDbTypes regs) :
    storage.RegisterDriver regs ins = regs ++ [ins] := by
  rw [storage.RegisterDriver, if_neg]
  intro hany
  rcases List.any_eq_true.mp hany with ⟨d, hd, hdt⟩
  exact h (List.mem_map.mpr ⟨d, hd, by simpa using hdt⟩)

theorem storage_fold_nodup :
    ∀ (inss regs : List storage.StorageDriver),
      (storage.RegisteredDbTypes regs).Nodup →
      (storage.RegisteredDbTypes (inss.foldl storage.RegisterDriver regs)).Nodup
  | [], _, h => h
  | ins :: inss, regs, h => by
    rw [List.foldl_cons]
    apply storage_fold_nodup inss
    by_cases hmem : ins.DbType ∈ storage.RegisteredDbTypes regs
    · rw [storage_register_noop regs ins hmem]
      exact h
    · rw [storage_register_new regs ins hmem]
      have : storage.RegisteredDbTypes (regs ++ [ins]) =
          storage.RegisteredDbTypes regs ++ [ins.DbType] := by
        simp [storage.RegisteredDbTypes]
      rw [this]
      refine List.Nodup.append h (by simp) ?_
      intro x hx1 hx2
      rw [List.mem_singleton] at hx2
      subst hx2
      exact hmem hx1

theorem wdb_OpenDB_unknown :
    ∀ (drivers : List wdb.DBDriver) (t p : String),
      (∀ d ∈ drivers, d.DbType ≠ t) → wdb.OpenDB drivers t p = .error wdb.ErrDbUnknownType
  | [], _, _, _ => rfl
  | d :: rest, t, p, h => by
    rw [wdb.OpenDB, if_neg (h d (by simp))]
    exact wdb_OpenDB_unknown rest t p fun x hx => h x (List.mem_cons_of_mem d hx)

theorem wdb_OpenDB_found :
    ∀ (drivers : List wdb.DBDriver) (t p : String) (d : wdb.DBDriver),
      drivers.find? (fun x => x.DbType == t) = some d →
      wdb.OpenDB drivers t p = d.OpenDB p
  | [], _, _, _, h => by simp [List.find?] at h
  | d0 :: rest, t, p, d, h => by
    rw [wdb.OpenDB]
    by_cases h0 : d0.DbType = t
    · rw [List.find?_cons_of_pos _ (by simp [h0])] at h
      injection h with h
      subst h
      rw [if_pos h0]
    · rw [List.find?_cons_of_neg _ (by simp [h0])] at h
      rw [if_neg h0]
      exact wdb_OpenDB_found rest t p d h

theorem wdb_CreateDB_unknown :
    ∀ (drivers : List wdb.DBDriver) (t p : String),
      (∀ d ∈ drivers, d.DbType ≠ t) → wdb.CreateDB drivers t p = .error wdb.ErrDbUnknownType
  | [], _, _, _ => rfl
  | d :: rest, t, p, h => by
    rw [wdb.CreateDB, if_neg (h d (by simp))]
    exact wdb_CreateDB_unknown rest t p fun x hx => h x (List.mem_cons_of_mem d hx)

theorem wdb_CreateDB_found :
    ∀ (drivers : List wdb.DBDriver) (t p : String) (d : wdb.DBDriver),
      drivers.find? (fun x => x.DbType == t) = some d →
      wdb.CreateDB drivers t p = d.CreateDB p
  | [], _, _, _, h => by simp [List.find?] at h
  | d0 :: rest, t, p, d, h => by
    rw [wdb.CreateDB]
    by_cases h0 : d0.DbType = t
    · rw [List.find?_cons_of_pos _ (by simp [h0])] at h
      injection h with h
      subst h
      rw [if_pos h0]
    · rw [List.find?_cons_of_neg _ (by simp [h0])] at h
      rw [if_neg h0]
      exact wdb_CreateDB_found rest t p d h

theorem wdb_register_noop (regs : List wdb.DBDriver) (ins : wdb.DBDriver)
    (h : ins.DbType ∈ wdb.RegisteredDbTypes regs) : wdb.RegisterDriver regs ins = regs := by
  rw [wdb.RegisterDriver, if_pos]
  rcases List.mem_map.mp h with ⟨d, hd, hdt⟩
  exact List.any_eq_true.mpr ⟨d, hd, by simp [hdt]⟩

/-- C4 counterexample: the claim that `OpenStorage` fails the version
check on a mismatched stamp is false on the code.  With a driver
registered for type "t" and a persisted stamp recording dbtype "other"
(a stamp `CheckVersion` itself would reject, second conjunct),
`OpenStorage` nevertheless returns the driver open result, because the
`CheckVersion` call in its body is commented out. -/
theorem claimC4_counterexample :
    storage.OpenStorage
        [{ DbType := "t", CreateStorage := fun _ => Except.ok 1,
           OpenStorage := fun _ => Except.ok 7 }] "t" "path" = Except.ok 7
    ∧ storage.CheckVersion "t" (some { Dbtype := "other", Version := 1 })
        = some storage.ErrVersionCheckFailed := by
  constructor
  · rw [storage.OpenStorage, if_pos rfl]
  · rw [storage.CheckVersion]
    rw [if_neg]
    simp [storage.CurrentStorageVersion]

/-- C4 (amended): `OpenStorage` performs no version check at all — it
takes only the registry, type and path, delegating to the first driver
of the given type (unknown-driver-type when none exists), regardless of
any persisted stamp; `CheckVersion` itself, on its open path, fails
with the does-not-exist error when no stamp is present, fails the
version check when the stamp records another dbtype or a version other
than the current one (1), and passes otherwise — but `OpenStorage`
never invokes it (the call is commented out in the source). -/
theorem claimC4 :
    (∀ (drivers : List storage.StorageDriver) (t p : String) (d : storage.StorageDriver),
        drivers.find? (fun x => x.DbType == t) = some d →
        storage.OpenStorage drivers t p = d.OpenStorage p)
    ∧ (∀ (drivers : List storage.StorageDriver) (t p : String),
        (∀ d ∈ drivers, d.DbType ≠ t) →
        storage.OpenStorage drivers t p = .error storage.ErrDbUnknownType)
    ∧ (∀ t : String, storage.CheckVersion t none = some storage.ErrDbDoesNotExist)
    ∧ (∀ (t : String) (ver : storage.storageVersion),
        ver.Version ≠ storage.CurrentStorageVersion ∨ ver.Dbtype ≠ t →
        storage.CheckVersion t (some ver) = some storage.ErrVersionCheckFailed)
    ∧ (∀ (t : String) (ver : storage.storageVersion),
        ver.Version = storage.CurrentStorageVersion → ver.Dbtype = t →
        storage.CheckVersion t (some ver) = none) := by
  refine ⟨storage_OpenStorage_found, storage_OpenStorage_unknown, fun t => rfl, ?_, ?_⟩
  · intro t ver h
    rw [storage.CheckVersion, if_neg]
    tauto
  · intro t ver h1 h2
    rw [storage.CheckVersion, if_pos ⟨h1, h2⟩]

/-- Witness for C4 (amended) at a one-driver registry and a mismatched
stamp. -/
theorem claimC4_witness :
    storage.OpenStorage
        [{ DbType := "t", CreateStorage := fun _ => Except.ok 1,
           OpenStorage := fun _ => Except.ok 9 }] "t" "p" = Except.ok 9
    ∧ storage.CheckVersion "t" (some { Dbtype := "t", Version := 2 })
        = some storage.ErrVersionCheckFailed := by
  constructor
  · exact claimC4.1
      [{ DbType := "t", CreateStorage := fun _ => Except.ok 1,
         OpenStorage := fun _ => Except.ok 9 }] "t" "p"
      { DbType := "t", CreateStorage := fun _ => Except.ok 1,
        OpenStorage := fun _ => Except.ok 9 }
      (by rw [List.find?_cons_of_pos _ (by simp)])
  · exact claimC4.2.2.2.1 "t" { Dbtype := "t", Version := 2 }
      (Or.inl (by simp [storage.CurrentStorageVersion]))

/-- C5: duplicate driver registration is a silent no-op (the first
registration stays; a fresh type is appended, so identifiers are listed
once each, in first-registration order, and every registry built by
registration from empty has no duplicate identifiers); opening or
creating through either registry fails with the unknown-driver-type
error when no driver has the requested identifier, and otherwise
returns the matching driver constructor result verbatim. -/
theorem claimC5 :
    (∀ (regs : List storage.StorageDriver) (ins : storage.StorageDriver),
        ins.DbType ∈ storage.RegisteredDbTypes regs →
        storage.RegisterDriver regs ins = regs)
    ∧ (∀ (regs : List storage.StorageDriver) (ins : storage.StorageDriver),
        ins.DbType ∉ storage.RegisteredDbTypes regs →
        storage.RegisterDriver regs ins = regs ++ [ins])
    ∧ (∀ inss : List storage.StorageDriver,
        (storage.RegisteredDbTypes (inss.foldl storage.RegisterDriver [])).Nodup)
    ∧ (∀ (regs : List storage.StorageDriver) (t p : String),
        (∀ d ∈ regs, d.DbType ≠ t) →
        storage.OpenStorage regs t p = .error storage.ErrDbUnknownType
        ∧ storage.CreateStorage regs t p = .error storage.ErrDbUnknownType)
    ∧ (∀ (regs : List storage.StorageDriver) (t p : String) (d : storage.StorageDriver),
        regs.find? (fun x => x.DbType == t) = some d →
        storage.OpenStorage regs t p = d.OpenStorage p
        ∧ storage.CreateStorage regs t p = d.CreateStorage p)
    ∧ (∀ (regs : List wdb.DBDriver) (ins : wdb.DBDriver),
        ins.DbType ∈ wdb.RegisteredDbTypes regs → wdb.RegisterDriver regs ins = regs)
    ∧ (∀ (regs : List wdb.DBDriver) (t p : String),
        (∀ d ∈ regs, d.DbType ≠ t) →
        wdb.OpenDB regs t p = .error wdb.ErrDbUnknownType
        ∧ wdb.CreateDB regs t p = .error wdb.ErrDbUnknownType)
    ∧ (∀ (regs : List wdb.DBDriver) (t p : String) (d : wdb.DBDriver),
        regs.find? (fun x => x.DbType == t) = some d →
        wdb.OpenDB regs t p = d.OpenDB p ∧ wdb.CreateDB regs t p = d.CreateDB p) := by
  refine ⟨storage_register_noop, storage_register_new,
    fun inss => storage_fold_nodup inss [] (by simp [storage.RegisteredDbTypes]),
    fun regs t p h => ⟨storage_OpenStorage_unknown regs t p h,
      storage_CreateStorage_unknown regs t p h⟩,
    fun regs t p d h => ⟨storage_OpenStorage_found regs t p d h,
      storage_CreateStorage_found regs t p d h⟩,
    wdb_register_noop,
    fun regs t p h => ⟨wdb_OpenDB_unknown regs t p h, wdb_CreateDB_unknown regs t p h⟩,
    fun regs t p d h => ⟨wdb_OpenDB_found regs t p d h, wdb_CreateDB_found regs t p d h⟩⟩

/-- Witness for C5: a duplicate registration leaves a one-driver
registry unchanged, and opening an unregistered type fails with the
unknown-driver-type error. -/
theorem claimC5_witness :
    storage.RegisterDriver
        [{ DbType := "ldb", CreateStorage := fun _ => Except.ok 0,
           OpenStorage := fun _ => Except.ok 1 }]
        { DbType := "ldb", CreateStorage := fun _ => Except.ok 2,
          OpenStorage := fun _ => Except.ok 3 } =
      [{ DbType := "ldb", CreateStorage := fun _ => Except.ok 0,
         OpenStorage := fun _ => Except.ok 1 }]
    ∧ storage.OpenStorage
        [{ DbType := "ldb", CreateStorage := fun _ => Except.ok 0,
           OpenStorage := fun _ => Except.ok 1 }] "mdb" "p" =
      .error storage.ErrDbUnknownType := by
  refine ⟨claimC5.1 _ _ ?_, (claimC5.2.2.2.1 _ "mdb" "p" ?_).1⟩
  · simp [storage.RegisteredDbTypes]
  · intro d hd
    rw [List.mem_singleton] at hd
    subst hd
    simp

/-! ## Properties of the keystore codec -/

theorem getUint32LE_putUint32LE (n : Nat) :
    getUint32LE (putUint32LE n) = n % 4294967296 := by
  simp only [putUint32LE, getUint32LE, List.getD, List.get?, Option.getD_some]
  omega

theorem putUint32LE_length (n : Nat) : (putUint32LE n).length = 4 := rfl

theorem serializeHDAccountKey_length (pub priv : List Nat) :
    (keystore.serializeHDAccountKey pub priv).length = 8 + pub.length + priv.length := by
  simp [keystore.serializeHDAccountKey, putUint32LE_length]
  omega

theorem deserializeAccountRow_ok (aid s : List Nat) (h5 : 5 ≤ s.length)
    (hlen : s.length < 4294967296)
    (hfit : 5 + getUint32LE ((s.drop 1).take 4) ≤ s.length) :
    keystore.deserializeAccountRow aid s =
      .ok { acctType := s.getD 0 0,
            rawData := (s.drop 5).take (getUint32LE ((s.drop 1).take 4)) } := by
  have hmod : (5 + getUint32LE ((s.drop 1).take 4)) % 4294967296
      = 5 + getUint32LE ((s.drop 1).take 4) := Nat.mod_eq_of_lt (by omega)
  simp only [keystore.deserializeAccountRow, keystore.sliceGo, hmod]
  rw [if_neg (by omega), if_pos ⟨by omega, hfit⟩]
  simp

theorem deserializeHDAccountKey_ok (aid : List Nat) (row : keystore.dbAccountRow)
    (h8 : 8 ≤ row.rawData.length) (hlen : row.rawData.length < 4294967296)
    (hfit : 8 + getUint32LE (row.rawData.take 4) +
        getUint32LE ((row.rawData.drop (4 + getUint32LE (row.rawData.take 4))).take 4)
      ≤ row.rawData.length) :
    keystore.deserializeHDAccountKey aid row =
      .ok { row := row,
            pubKeyEncrypted :=
              (row.rawData.drop 4).take (getUint32LE (row.rawData.take 4)),
            privKeyEncrypted :=
              (row.rawData.drop (8 + getUint32LE (row.rawData.take 4))).take
                (getUint32LE
                  ((row.rawData.drop (4 + getUint32LE (row.rawData.take 4))).take 4)) } := by
  have hm1 : (4 + getUint32LE (row.rawData.take 4)) % 4294967296
      = 4 + getUint32LE (row.rawData.take 4) := Nat.mod_eq_of_lt (by omega)
  have hm2 : (4 + getUint32LE (row.rawData.take 4) + 4) % 4294967296
      = 8 + getUint32LE (row.rawData.take 4) := by
    rw [Nat.mod_eq_of_lt (by omega)]
    omega
  have ht4 : (row.rawData.drop (4 + getUint32LE (row.rawData.take 4))).take
      (8 + getUint32LE (row.rawData.take 4) - (4 + getUint32LE (row.rawData.take 4)))
      = (row.rawData.drop (4 + getUint32LE (row.rawData.take 4))).take 4 := by
    congr 1
    omega
  have hm3 : (8 + getUint32LE (row.rawData.take 4) +
      getUint32LE ((row.rawData.drop (4 + getUint32LE (row.rawData.take 4))).take 4))
        % 4294967296
      = 8 + getUint32LE (row.rawData.take 4) +
          getUint32LE ((row.rawData.drop (4 + getUint32LE (row.rawData.take 4))).take 4) :=
    Nat.mod_eq_of_lt (by omega)
  simp only [keystore.deserializeHDAccountKey, keystore.sliceGo, hm1, hm2]
  rw [if_neg (by omega), if_pos ⟨by omega, by omega⟩]
  simp only []
  rw [if_pos ⟨by omega, by omega⟩]
  simp only []
  rw [ht4, hm3, if_pos ⟨by omega, by omega⟩]
  simp only []
  simp only [Nat.add_sub_cancel_left]

theorem deserializeAccountRow_serialize (aid : List Nat) (row : keystore.dbAccountRow)
    (h1 : 5 + row.rawData.length < 4294967296) (h2 : row.acctType < 256) :
    keystore.deserializeAccountRow aid (keystore.serializeAccountRow row) = .ok row := by
  obtain ⟨t, rd⟩ := row
  simp only at h1 h2
  have hs : keystore.serializeAccountRow { acctType := t, rawData := rd }
      = t % 256 :: (putUint32LE rd.length ++ rd) := rfl
  have hlen : (keystore.serializeAccountRow { acctType := t, rawData := rd }).length
      = 5 + rd.length := by
    rw [hs]
    simp [putUint32LE_length]
    omega
  have hrd : getUint32LE (((keystore.serializeAccountRow
      { acctType := t, rawData := rd }).drop 1).take 4) = rd.length := by
    rw [hs]
    show getUint32LE ((putUint32LE rd.length ++ rd).take 4) = rd.length
    rw [List.take_left' (putUint32LE_length _), getUint32LE_putUint32LE]
    exact Nat.mod_eq_of_lt (by omega)
  have hdrop5 : (keystore.serializeAccountRow { acctType := t, rawData := rd }).drop 5
      = rd := by
    rw [hs]
    show (putUint32LE rd.length ++ rd).drop 4 = rd
    exact List.drop_left' (putUint32LE_length _)
  rw [deserializeAccountRow_ok aid _ (by rw [hlen]; omega) (by rw [hlen]; omega)
    (by rw [hrd, hlen])]
  rw [hrd, hdrop5, List.take_length]
  rw [hs]
  show keystore.GoResult.ok
    ({ acctType := t % 256, rawData := rd } : keystore.dbAccountRow) = _
  rw [Nat.mod_eq_of_lt h2]

theorem deserializeHDAccountKey_serialize (aid pub priv : List Nat) (t : Nat)
    (h : 13 + pub.length + priv.length < 4294967296) :
    keystore.deserializeHDAccountKey aid
        { acctType := t, rawData := keystore.serializeHDAccountKey pub priv } =
      .ok { row := { acctType := t, rawData := keystore.serializeHDAccountKey pub priv },
            pubKeyEncrypted := pub, privKeyEncrypted := priv } := by
  have hlenr := serializeHDAccountKey_length pub priv
  have hassoc : keystore.serializeHDAccountKey pub priv
      = putUint32LE pub.length ++ (pub ++ (putUint32LE priv.length ++ priv)) := by
    rw [keystore.serializeHDAccountKey, List.append_assoc, List.append_assoc]
  have hpubLen : getUint32LE ((keystore.serializeHDAccountKey pub priv).take 4)
      = pub.length := by
    rw [hassoc, List.take_left' (putUint32LE_length _), getUint32LE_putUint32LE]
    exact Nat.mod_eq_of_lt (by omega)
  have hpub : ((keystore.serializeHDAccountKey pub priv).drop 4).take pub.length = pub := by
    rw [hassoc, List.drop_left' (putUint32LE_length _), List.take_left' rfl]
  have hdropOff : (keystore.serializeHDAccountKey pub priv).drop (4 + pub.length)
      = putUint32LE priv.length ++ priv := by
    rw [hassoc, ← List.append_assoc]
    exact List.drop_left' (by simp [putUint32LE_length])
  have hprivLen : getUint32LE (((keystore.serializeHDAccountKey pub priv).drop
      (4 + pub.length)).take 4) = priv.length := by
    rw [hdropOff, List.take_left' (putUint32LE_length _), getUint32LE_putUint32LE]
    exact Nat.mod_eq_of_lt (by omega)
  have hpriv : ((keystore.serializeHDAccountKey pub priv).drop
      (8 + pub.length)).take priv.length = priv := by
    rw [hassoc, ← List.append_assoc, ← List.append_assoc]
    rw [List.drop_left' (by simp [putUint32LE_length]; omega), List.take_length]
  rw [deserializeHDAccountKey_ok aid _ (by simp only; omega) (by simp only; omega)
    (by simp only; rw [hpubLen, hprivLen]; omega)]
  simp only
  rw [hpubLen, hprivLen, hpub, hpriv]

/-- C3: serializing two encrypted key blobs with `serializeHDAccountKey`,
wrapping the payload in an `accountMASS` account row with
`serializeAccountRow`, then deserializing the row and decoding its
payload reproduces byte-identical blobs (the length bound keeps the
4-byte `uint32` length fields exact). -/
theorem claimC3 (aid encryptedPubKey encryptedPrivKey : List Nat)
    (h : 13 + encryptedPubKey.length + encryptedPrivKey.length < 4294967296) :
    keystore.deserializeAccountRow aid
        (keystore.serializeAccountRow
          { acctType := 0,
            rawData := keystore.serializeHDAccountKey encryptedPubKey encryptedPrivKey }) =
      .ok { acctType := 0,
            rawData := keystore.serializeHDAccountKey encryptedPubKey encryptedPrivKey }
    ∧ keystore.deserializeHDAccountKey aid
        { acctType := 0,
          rawData := keystore.serializeHDAccountKey encryptedPubKey encryptedPrivKey } =
      .ok { row :=
              { acctType := 0,
                rawData :=
                  keystore.serializeHDAccountKey encryptedPubKey encryptedPrivKey },
            pubKeyEncrypted := encryptedPubKey,
            privKeyEncrypted := encryptedPrivKey } := by
  have hlenr := serializeHDAccountKey_length encryptedPubKey encryptedPrivKey
  exact ⟨deserializeAccountRow_serialize aid _ (by simp only; omega) (by simp only; omega),
    deserializeHDAccountKey_serialize aid encryptedPubKey encryptedPrivKey 0 h⟩

/-- Witness for C3 at the blobs `[170, 187]` and `[205]`. -/
theorem claimC3_witness :
    keystore.deserializeAccountRow [0]
        (keystore.serializeAccountRow
          { acctType := 0, rawData := keystore.serializeHDAccountKey [170, 187] [205] }) =
      .ok { acctType := 0, rawData := keystore.serializeHDAccountKey [170, 187] [205] }
    ∧ keystore.deserializeHDAccountKey [0]
        { acctType := 0, rawData := keystore.serializeHDAccountKey [170, 187] [205] } =
      .ok { row :=
              { acctType := 0,
                rawData := keystore.serializeHDAccountKey [170, 187] [205] },
            pubKeyEncrypted := [170, 187], privKeyEncrypted := [205] } :=
  claimC3 [0] [170, 187] [205] (by decide)

/-- C10: with only the fixed minimum-length checks in the code, the
decoders succeed exactly under the precondition that the embedded
4-byte length fields are consistent with the data actually present:
`deserializeAccountRow` then returns the leading type byte and the
declared number of payload bytes after the 5-byte header (trailing
bytes ignored), and `deserializeHDAccountKey` returns the declared
public-key and private-key segments (trailing bytes ignored). -/
theorem claimC10 :
    (∀ aid s : List Nat, 5 ≤ s.length → s.length < 4294967296 →
        5 + getUint32LE ((s.drop 1).take 4) ≤ s.length →
        keystore.deserializeAccountRow aid s =
          .ok { acctType := s.getD 0 0,
                rawData := (s.drop 5).take (getUint32LE ((s.drop 1).take 4)) })
    ∧ (∀ (aid : List Nat) (row : keystore.dbAccountRow),
        8 ≤ row.rawData.length → row.rawData.length < 4294967296 →
        8 + getUint32LE (row.rawData.take 4) +
            getUint32LE ((row.rawData.drop
              (4 + getUint32LE (row.rawData.take 4))).take 4) ≤ row.rawData.length →
        keystore.deserializeHDAccountKey aid row =
          .ok { row := row,
                pubKeyEncrypted :=
                  (row.rawData.drop 4).take (getUint32LE (row.rawData.take 4)),
                privKeyEncrypted :=
                  (row.rawData.drop (8 + getUint32LE (row.rawData.take 4))).take
                    (getUint32LE ((row.rawData.drop
                      (4 + getUint32LE (row.rawData.take 4))).take 4)) }) :=
  ⟨deserializeAccountRow_ok, deserializeHDAccountKey_ok⟩

/-- Witness for C10: a row with one trailing byte beyond the declared
payload, and a payload with one trailing byte beyond the declared key
segments, both decode successfully ignoring the trailing byte. -/
theorem claimC10_witness :
    keystore.deserializeAccountRow [0] [7, 2, 0, 0, 0, 9, 8, 42] =
      .ok { acctType := 7, rawData := [9, 8] }
    ∧ keystore.deserializeHDAccountKey [0]
        { acctType := 0, rawData := [1, 0, 0, 0, 5, 0, 0, 0, 0, 99] } =
      .ok { row := { acctType := 0, rawData := [1, 0, 0, 0, 5, 0, 0, 0, 0, 99] },
            pubKeyEncrypted := [5], privKeyEncrypted := [] } :=
  ⟨claimC10.1 [0] [7, 2, 0, 0, 0, 9, 8, 42] (by decide) (by decide) (by decide),
    claimC10.2 [0] { acctType := 0, rawData := [1, 0, 0, 0, 5, 0, 0, 0, 0, 99] }
      (by decide) (by decide) (by decide)⟩

/-- C8: an account record shorter than the 5-byte header fails to decode
with the malformed-serialized-account error, and a stored row whose
length fields are consistent but whose leading account-type tag is not
`accountMASS = 0` makes `fetchAccountInfo` fail with the
unsupported-account-type error. -/
theorem claimC8 :
    (∀ aid s : List Nat, s.length < 5 →
        keystore.deserializeAccountRow aid s = .err "malformed serialized account")
    ∧ (∀ (get : keystore.Getter) (a : Nat) (d : List Nat),
        (get (keystore.uint32ToBytes a)).1 = some d →
        5 ≤ d.length → d.length < 4294967296 →
        5 + getUint32LE ((d.drop 1).take 4) ≤ d.length →
        d.getD 0 0 ≠ 0 →
        keystore.fetchAccountInfo get a = .err "unsupported account type") := by
  constructor
  · intro aid s h
    simp only [keystore.deserializeAccountRow]
    rw [if_pos h]
  · intro get a d hv h5 hlen hfit htag
    simp only [keystore.fetchAccountInfo, hv]
    rw [deserializeAccountRow_ok (keystore.uint32ToBytes a) d h5 hlen hfit]
    simp only []
    rw [if_neg htag]

/-- Witness for C8: a 2-byte record is malformed, and a stored row with
tag 9 is unsupported. -/
theorem claimC8_witness :
    keystore.deserializeAccountRow [0] [1, 2] = .err "malformed serialized account"
    ∧ keystore.fetchAccountInfo
        (fun k => if k = keystore.uint32ToBytes 3 then (some [9, 0, 0, 0, 0], none)
          else (none, none)) 3 = .err "unsupported account type" :=
  ⟨claimC8.1 [0] [1, 2] (by decide),
    claimC8.2 _ 3 [9, 0, 0, 0, 0] (by simp) (by decide) (by decide) (by decide) (by decide)⟩

/-- C6 counterexample: the claim that `fetchCryptoKeys` returns the
error from getting the crypto private key record is false on the code.
With the public key present and the private-key get failing with a disk
error, `fetchCryptoKeys` returns a nil error and simply treats the
private key as absent. -/
theorem claimC6_counterexample :
    keystore.fetchCryptoKeys (fun k =>
        if k = keystore.cryptoPubKeyName then (some [1], none)
        else if k = keystore.cryptoPrivKeyName then (none, some "disk failure")
        else (none, none)) = (some [1], none, none, none)
    ∧ (keystore.fetchCryptoKeys (fun k =>
        if k = keystore.cryptoPubKeyName then (some [1], none)
        else if k = keystore.cryptoPrivKeyName then (none, some "disk failure")
        else (none, none))).2.2.2 ≠ some "disk failure" := by
  constructor
  · rfl
  · intro hcontra
    cases hcontra

/-- C6 (amended): `fetchCryptoKeys` propagates a get failure only for
the required crypto public key; the errors of the private-key and
entropy-key gets are assigned to a variable that is never read, so the
result depends only on their values; `fetchAccountUsage` and
`fetchAccountInfo` discard the get error outright (their results are
unchanged if every get error is erased) and report their not-stored /
not-found message exactly when the value is absent. -/
theorem claimC6 :
    (∀ (get : keystore.Getter) (e : String),
        (get keystore.cryptoPubKeyName).2 = some e →
        keystore.fetchCryptoKeys get = (none, none, none, some e))
    ∧ (∀ get1 get2 : keystore.Getter,
        get1 keystore.cryptoPubKeyName = get2 keystore.cryptoPubKeyName →
        (get1 keystore.cryptoPrivKeyName).1 = (get2 keystore.cryptoPrivKeyName).1 →
        (get1 keystore.cryptoEntropyKeyName).1 = (get2 keystore.cryptoEntropyKeyName).1 →
        keystore.fetchCryptoKeys get1 = keystore.fetchCryptoKeys get2)
    ∧ (∀ get : keystore.Getter,
        keystore.fetchAccountUsage get =
          keystore.fetchAccountUsage (fun k => ((get k).1, none)))
    ∧ (∀ get : keystore.Getter, (get keystore.accountUsageName).1 = none →
        keystore.fetchAccountUsage get =
          (0, some "required account usage not stored in database"))
    ∧ (∀ (get : keystore.Getter) (a : Nat),
        keystore.fetchAccountInfo get a =
          keystore.fetchAccountInfo (fun k => ((get k).1, none)) a)
    ∧ (∀ (get : keystore.Getter) (a : Nat),
        (get (keystore.uint32ToBytes a)).1 = none →
        keystore.fetchAccountInfo get a = .err "account not found") := by
  refine ⟨?_, ?_, ?_, ?_, ?_, ?_⟩
  · intro get e h
    simp only [keystore.fetchCryptoKeys, h]
  · intro get1 get2 h1 h2 h3
    simp only [keystore.fetchCryptoKeys, h1, h2, h3]
  · intro get
    rfl
  · intro get h
    simp only [keystore.fetchAccountUsage, h]
  · intro get a
    rfl
  · intro get a h
    simp only [keystore.fetchAccountInfo, h]

/-- Witness for C6 (amended): a failing get of the required crypto
public key is propagated. -/
theorem claimC6_witness :
    keystore.fetchCryptoKeys (fun _ => (none, some "io fault")) =
      (none, none, none, some "io fault") :=
  claimC6.1 (fun _ => (none, some "io fault")) "io fault" rfl

/-- C7 counterexample: the claim that `fetchVersion` fails with a
required-record-not-stored error when the version record is absent is
false on the code: on a bucket whose every get yields a nil value and a
nil error, `fetchVersion` returns version 0 with a nil error. -/
theorem claimC7_counterexample :
    keystore.fetchVersion (fun _ => (none, none)) = (0, none) := rfl

/-- C7 (amended): when the keystore version record is absent (the get
yields a nil value and a nil error), `fetchVersion` returns version 0
with a nil error rather than a required-record-not-stored condition:
the version record is handled like an optional field. -/
theorem claimC7 (get : keystore.Getter)
    (h : get keystore.keystoreVersionName = (none, none)) :
    keystore.fetchVersion get = (0, none) := by
  simp [keystore.fetchVersion, h]

/-- Witness for C7 (amended) at the empty bucket. -/
theorem claimC7_witness : keystore.fetchVersion (fun _ => (none, none)) = (0, none) :=
  claimC7 (fun _ => (none, none)) rfl

/-! ## Properties of the child-index counters -/

theorem bgetVal_bput_same : ∀ (b : keystore.Bkt) (k v : List Nat),
    keystore.bgetVal (keystore.bput b k v) k = some v
  | [], k, v => by simp [keystore.bput, keystore.bgetVal]
  | (k0, v0) :: rest, k, v => by
    by_cases h : k0 = k
    · simp [keystore.bput, keystore.bgetVal, h]
    · simp [keystore.bput, keystore.bgetVal, h, bgetVal_bput_same rest k v]

theorem bgetVal_bput_ne : ∀ (b : keystore.Bkt) (k k2 v : List Nat), k ≠ k2 →
    keystore.bgetVal (keystore.bput b k v) k2 = keystore.bgetVal b k2
  | [], k, k2, v, h => by simp [keystore.bput, keystore.bgetVal, h]
  | (k0, v0) :: rest, k, k2, v, h => by
    by_cases h0 : k0 = k
    · subst h0
      simp [keystore.bput, keystore.bgetVal, h]
    · simp only [keystore.bput, if_neg h0]
      by_cases h2 : k0 = k2
      · simp [keystore.bgetVal, h2]
      · simp [keystore.bgetVal, h2, bgetVal_bput_ne rest k k2 v h]

/-- C9: on any bucket, initializing the branch child numbers makes
`fetchChildNum` read back `(internal = 0, external = 0)`, and a
subsequent `updateChildNum(internal = true, 5)` makes it read back
`(internal = 5, external = 0)`: the two 4-byte little-endian counters
live under independent keys selected by the boolean, so updating one
leaves the other unchanged. -/
theorem claimC9 (b : keystore.Bkt) :
    keystore.fetchChildNum
        (keystore.bucketGetter (keystore.initBranchChildNum b)) = (0, 0, none)
    ∧ keystore.fetchChildNum
        (keystore.bucketGetter
          (keystore.updateChildNum (keystore.initBranchChildNum b) true 5)) =
      (5, 0, none) := by
  have hne : keystore.internalChildNumName ≠ keystore.externalChildNumName := by decide
  have hz : getUint32LE (keystore.uint32ToBytes 0) = 0 := by decide
  have h5 : getUint32LE (keystore.uint32ToBytes 5) = 5 := by decide
  have hex : keystore.bgetVal (keystore.initBranchChildNum b)
      keystore.externalChildNumName = some (keystore.uint32ToBytes 0) := by
    rw [keystore.initBranchChildNum, bgetVal_bput_ne _ _ _ _ hne, bgetVal_bput_same]
  have hin : keystore.bgetVal (keystore.initBranchChildNum b)
      keystore.internalChildNumName = some (keystore.uint32ToBytes 0) := by
    rw [keystore.initBranchChildNum, bgetVal_bput_same]
  constructor
  · simp only [keystore.fetchChildNum, keystore.bucketGetter, hex, hin, hz]
  · have hex2 : keystore.bgetVal
        (keystore.updateChildNum (keystore.initBranchChildNum b) true 5)
        keystore.externalChildNumName = some (keystore.uint32ToBytes 0) := by
      rw [keystore.updateChildNum]
      simp only [if_pos]
      rw [bgetVal_bput_ne _ _ _ _ hne]
      exact hex
    have hin2 : keystore.bgetVal
        (keystore.updateChildNum (keystore.initBranchChildNum b) true 5)
        keystore.internalChildNumName = some (keystore.uint32ToBytes 5) := by
      rw [keystore.updateChildNum]
      simp only [if_pos]
      exact bgetVal_bput_same _ _ _
    simp only [keystore.fetchChildNum, keystore.bucketGetter, hex2, hin2, hz, h5]

/-- Witness for C9 at the empty bucket. -/
theorem claimC9_witness :
    keystore.fetchChildNum
        (keystore.bucketGetter (keystore.initBranchChildNum [])) = (0, 0, none)
    ∧ keystore.fetchChildNum
        (keystore.bucketGetter
          (keystore.updateChildNum (keystore.initBranchChildNum []) true 5)) =
      (5, 0, none) :=
  claimC9 []
